import Mathlib

/-!
Verification development for the dashboard version-lifecycle controller
(spaceone dashboard service).  The service layer
(`dashboard_service.py`) is embedded shallowly: dashboards and version
snapshots are Lean structures, the document store is an explicit state
value, every service operation is a total function returning
`Except Err _`.  Manager-level operations that the service delegates to
(`DashboardManager` / `DashboardVersionManager`) are not part of the
source tree; they are modelled from the specification and are marked as
such in their doc comments.
-/

/-- Tagged-union value for the free-form dict/list shaped fields
(`layouts` items, `variables`, `settings`, `variables_schema` values).
The version-lifecycle controller only ever compares these values for
deep equality and never inspects their internal structure, so nested
mappings/sequences are represented opaquely by `vopaque` tags: two
payloads are deeply equal iff their tags are equal. -/
inductive Val where
  | vnull : Val
  | vbool : Bool → Val
  | vint : Int → Val
  | vstr : String → Val
  | vopaque : Nat → Val
deriving DecidableEq, Repr

/-- A Python dict with string keys: an ordered association list.
Python dicts have unique keys; where a statement needs that, it is a
hypothesis. -/
abbrev Dict := List (String × Val)

/-- First-match lookup, the association-list reading of `d[k]`. -/
def dlookup (d : Dict) (k : String) : Option Val :=
  (d.find? (fun kv => kv.1 == k)).map (fun kv => kv.2)

example : dlookup [("a", Val.vint 1), ("b", Val.vint 2)] "b" = some (Val.vint 2) := by decide

/-- The mutable current-state record (`Dashboard` mongo document).
`version` is the integer version counter; `viewers` is the raw string the
service compares against the literal "PRIVATE". `created_at` is omitted
(never consulted by the controller). -/
structure Dashboard where
  dashboard_id : String
  name : String
  dashboard_type : String
  layouts : List Val
  «variables» : Dict
  settings : Dict
  variables_schema : Dict
  labels : List String
  tags : Dict
  viewers : String
  resource_group : String
  version : Nat
  user_id : String
  project_id : String
  workspace_id : String
  domain_id : String
deriving DecidableEq, Repr

/-- An immutable version snapshot (`DashboardVersion` mongo document),
keyed by `(dashboard_id, version, domain_id)`. -/
structure Snapshot where
  dashboard_id : String
  version : Nat
  layouts : List Val
  «variables» : Dict
  settings : Dict
  variables_schema : Dict
  domain_id : String
deriving DecidableEq, Repr

/-- A partial update (the `params` dict of `DashboardService.update`
minus the addressing keys `dashboard_id` / `domain_id`): `none` means
the key is absent from the dict. -/
structure Patch where
  name : Option String := none
  layouts : Option (List Val) := none
  «variables» : Option Dict := none
  settings : Option Dict := none
  variables_schema : Option Dict := none
  labels : Option (List String) := none
  tags : Option Dict := none
deriving DecidableEq, Repr

/-- The `params` dict of `DashboardService.create` minus the addressing
keys (the stored `dashboard_id` is generated externally and appears here
as a given). `Option` fields model key presence, which `create` tests. -/
structure CreateParams where
  dashboard_id : String
  name : String
  dashboard_type : String
  layouts : Option (List Val) := none
  «variables» : Option Dict := none
  settings : Option Dict := none
  variables_schema : Option Dict := none
  labels : Option (List String) := none
  tags : Option Dict := none
  viewers : String
  resource_group : String
  user_id : String
  project_id : String
  workspace_id : String
  domain_id : String
deriving DecidableEq, Repr

/-- The document store: the `dashboards` and `dashboard_versions`
collections. -/
structure Store where
  recs : List Dashboard
  snaps : List Snapshot
deriving DecidableEq, Repr

/-- Error taxonomy surfaced by the service operations. -/
inductive Err where
  | notFound : Err
  | permissionDenied : Err
  | latestVersion : Nat → Err
deriving DecidableEq, Repr

/-- Fetch of the current-state record by `(dashboard_id, domain_id)`,
the document-store read behind `get_domain_dashboard`. -/
def getDashboard (st : Store) (did dom : String) : Option Dashboard :=
  st.recs.find? (fun r => r.dashboard_id == did && r.domain_id == dom)

/-- Fetch of one snapshot by `(dashboard_id, version, domain_id)`, the
document-store read behind `DashboardVersionManager.get_version`. -/
def getSnapshot (st : Store) (did : String) (v : Nat) (dom : String) : Option Snapshot :=
  st.snaps.find? (fun s => s.dashboard_id == did && s.version == v && s.domain_id == dom)

/-- Replace the record whose key equals the key of the given record; the
document-store write behind a mongoengine `vo.update` / persisted `vo`. -/
def putDashboard (st : Store) (r2 : Dashboard) : Store :=
  { st with
    recs := st.recs.map (fun r =>
      if r.dashboard_id == r2.dashboard_id && r.domain_id == r2.domain_id then r2 else r) }

/-- Modelled from the spec: `DashboardManager.increase_version` (§4.2 of
the spec; the manager module is not in the source tree) — atomically
increments `record.version` by 1 and persists. -/
def increase_version (vo : Dashboard) : Dashboard :=
  { vo with version := vo.version + 1 }

/-- Modelled from the spec:
`DashboardVersionManager.create_version_by_domain_dashboard_vo` (§4.3;
the manager module is not in the source tree) — builds a snapshot using
`record.version` (post-increment) and the version-bearing fields drawn
from the just-applied patch, falling back to the record's current value
for any field not present in the patch. -/
def create_version_by_domain_dashboard_vo (vo : Dashboard) (p : Patch) : Snapshot :=
  { dashboard_id := vo.dashboard_id
    version := vo.version
    layouts := p.layouts.getD vo.layouts
    «variables» := p.«variables».getD vo.«variables»
    settings := p.settings.getD vo.settings
    variables_schema := p.variables_schema.getD vo.variables_schema
    domain_id := vo.domain_id }

/-- Modelled from the spec:
`DashboardManager.update_domain_dashboard_by_vo` (§4.2; the manager
module is not in the source tree) — applies the partial field patch to
the record. The patch never carries `version`, so the counter is
untouched. -/
def update_domain_dashboard_by_vo (p : Patch) (vo : Dashboard) : Dashboard :=
  { vo with
    name := p.name.getD vo.name
    layouts := p.layouts.getD vo.layouts
    «variables» := p.«variables».getD vo.«variables»
    settings := p.settings.getD vo.settings
    variables_schema := p.variables_schema.getD vo.variables_schema
    labels := p.labels.getD vo.labels
    tags := p.tags.getD vo.tags }

/-- Python truthiness of `params.get(key)` for a list-valued key: the
walrus test `if x := params.get(key):` succeeds only when the key is
present and its value is non-empty. -/
def getTruthyL (o : Option (List Val)) : Option (List Val) :=
  match o with
  | some l => if l.isEmpty then none else some l
  | none => none

/-- Python truthiness of `params.get(key)` for a dict-valued key. -/
def getTruthyD (o : Option Dict) : Option Dict :=
  match o with
  | some d => if d.isEmpty then none else some d
  | none => none

/-- The access-control gate condition of the service layer: the raw
boolean `dashboard_vo.viewers == "PRIVATE" and dashboard_vo.user_id !=
user_id` tested before every operation body. -/
def checkAccess (vo : Dashboard) (caller : String) : Bool :=
  vo.viewers == "PRIVATE" && vo.user_id != caller

/-- `DashboardService._has_version_key_in_params`: true iff some
version-bearing key (`layouts`, `variables`, `variables_schema`) is
present in the patch AND some version-bearing value that is truthy
(present and non-empty) differs from the record's current value.  The
Python function returns `None` (falsy) when no version key is present;
both falsy outcomes are `false` here. -/
def hasVersionKeyInParams (vo : Dashboard) (p : Patch) : Bool :=
  if p.layouts.isSome || p.«variables».isSome || p.variables_schema.isSome then
    (match getTruthyL p.layouts with
      | some l => vo.layouts != l
      | none => false)
    || (match getTruthyD p.«variables» with
      | some d => vo.«variables» != d
      | none => false)
    || (match getTruthyD p.variables_schema with
      | some d => d != vo.variables_schema
      | none => false)
  else
    false

/-- Python `dict.update` on association lists: keys already in `old`
keep their position and take the incoming value; keys only in `new` are
appended in order. -/
def dictUpdate (old new : Dict) : Dict :=
  old.map (fun kv =>
    match dlookup new kv.1 with
    | some v => (kv.1, v)
    | none => kv)
  ++ new.filter (fun kv => (dlookup old kv.1).isNone)

/-- `DashboardService._merge_settings`: deep-copy the old settings; if
the old settings are truthy (non-empty), update them with the incoming
mapping and return the result, otherwise return the incoming mapping
verbatim. -/
def merge_settings (old_settings new_settings : Dict) : Dict :=
  if old_settings.isEmpty then new_settings
  else dictUpdate old_settings new_settings

/-- The `params["settings"] = self._merge_settings(...)` step of
`DashboardService.update`: rewrite the settings entry of the patch when
the key is present. -/
def applySettingsMerge (vo : Dashboard) (p : Patch) : Patch :=
  match p.settings with
  | some s => { p with settings := some (merge_settings vo.settings s) }
  | none => p

/-- The `if "name" not in params: params["name"] = dashboard_vo.name`
step of `DashboardService.update`. -/
def applyNameDefault (vo : Dashboard) (p : Patch) : Patch :=
  match p.name with
  | some _ => p
  | none => { p with name := some vo.name }

/-- `DashboardService.update`: fetch, default the name, gate, merge
settings, decide version-worthiness (bump the counter and append a
snapshot when worthy), then apply the patch to the record. -/
def DashboardService.update (caller did dom : String) (p : Patch) (st : Store) :
    Except Err Store :=
  match getDashboard st did dom with
  | none => Except.error Err.notFound
  | some vo =>
    let p := applyNameDefault vo p
    if checkAccess vo caller then Except.error Err.permissionDenied
    else
      let p := applySettingsMerge vo p
      if hasVersionKeyInParams vo p then
        let vo2 := increase_version vo
        let snap := create_version_by_domain_dashboard_vo vo2 p
        let st2 : Store := { putDashboard st vo2 with snaps := snap :: st.snaps }
        Except.ok (putDashboard st2 (update_domain_dashboard_by_vo p vo2))
      else
        Except.ok (putDashboard st (update_domain_dashboard_by_vo p vo))

/-- `DashboardService.delete`: fetch, gate, delete every snapshot whose
`dashboard_id` matches (the source filters versions by `dashboard_id`
only), then delete the record itself. -/
def DashboardService.delete (caller did dom : String) (st : Store) :
    Except Err Store :=
  match getDashboard st did dom with
  | none => Except.error Err.notFound
  | some vo =>
    if checkAccess vo caller then Except.error Err.permissionDenied
    else
      Except.ok
        { recs := st.recs.filter (fun r => !(r.dashboard_id == did && r.domain_id == dom))
          snaps := st.snaps.filter (fun s => !(s.dashboard_id == vo.dashboard_id)) }

/-- `DashboardService.get`: fetch and gate; pure read. -/
def DashboardService.get (caller did dom : String) (st : Store) :
    Except Err Dashboard :=
  match getDashboard st did dom with
  | none => Except.error Err.notFound
  | some vo =>
    if checkAccess vo caller then Except.error Err.permissionDenied
    else Except.ok vo

/-- Modelled from the spec: `DashboardVersionManager.delete_version`
(§4.3 `delete_one`; the manager module is not in the source tree) —
removes the addressed snapshot, failing with `NotFound` when the key
does not resolve. -/
def versionStoreDeleteOne (st : Store) (did : String) (v : Nat) (dom : String) :
    Except Err Store :=
  match getSnapshot st did v dom with
  | none => Except.error Err.notFound
  | some _ =>
    Except.ok
      { st with
        snaps := st.snaps.filter (fun s =>
          !(s.dashboard_id == did && s.version == v && s.domain_id == dom)) }

/-- `DashboardService.delete_version`: fetch, gate, raise
`ERROR_LATEST_VERSION(version)` when the requested version equals the
record's current version, otherwise delegate deletion to the version
store. -/
def DashboardService.delete_version (caller did : String) (v : Nat) (dom : String)
    (st : Store) : Except Err Store :=
  match getDashboard st did dom with
  | none => Except.error Err.notFound
  | some vo =>
    if checkAccess vo caller then Except.error Err.permissionDenied
    else if vo.version == v then Except.error (Err.latestVersion v)
    else versionStoreDeleteOne st did v dom

/-- `DashboardService.revert_version`: fetch record and snapshot, gate,
copy the snapshot's three version-bearing fields into the patch, then
run the version-worthy path unconditionally (increase version, create a
new snapshot, apply the patch). -/
def DashboardService.revert_version (caller did : String) (v : Nat) (dom : String)
    (st : Store) : Except Err Store :=
  match getDashboard st did dom with
  | none => Except.error Err.notFound
  | some vo =>
    if checkAccess vo caller then Except.error Err.permissionDenied
    else
      match getSnapshot st did v dom with
      | none => Except.error Err.notFound
      | some version_vo =>
        let p : Patch :=
          { layouts := some version_vo.layouts
            «variables» := some version_vo.«variables»
            variables_schema := some version_vo.variables_schema }
        let vo2 := increase_version vo
        let snap := create_version_by_domain_dashboard_vo vo2 p
        let st2 : Store := { putDashboard st vo2 with snaps := snap :: st.snaps }
        Except.ok (putDashboard st2 (update_domain_dashboard_by_vo p vo2))

/-- `DashboardService.get_version`: fetch the record, gate, then fetch
the snapshot; pure read. -/
def DashboardService.get_version (caller did : String) (v : Nat) (dom : String)
    (st : Store) : Except Err Snapshot :=
  match getDashboard st did dom with
  | none => Except.error Err.notFound
  | some vo =>
    if checkAccess vo caller then Except.error Err.permissionDenied
    else
      match getSnapshot st did v dom with
      | none => Except.error Err.notFound
      | some version_vo => Except.ok version_vo

/-- `DashboardService.list_versions`: list the dashboard's snapshots
(the decorator-appended query restricts to the addressed dashboard),
fetch the record, gate, and return the snapshots together with the total
count and the record's current version; pure read. -/
def DashboardService.list_versions (caller did dom : String) (st : Store) :
    Except Err (List Snapshot × Nat × Nat) :=
  let vos := st.snaps.filter (fun s => s.dashboard_id == did && s.domain_id == dom)
  match getDashboard st did dom with
  | none => Except.error Err.notFound
  | some vo =>
    if checkAccess vo caller then Except.error Err.permissionDenied
    else Except.ok (vos, vos.length, vo.version)

/-- The record `DashboardService.create` persists (modelled from the
spec: the fresh record reports the first version number, 1; absent
fields take the document defaults). -/
def newDashboardOfParams (cp : CreateParams) : Dashboard :=
  { dashboard_id := cp.dashboard_id
    name := cp.name
    dashboard_type := cp.dashboard_type
    layouts := cp.layouts.getD []
    «variables» := cp.«variables».getD []
    settings := cp.settings.getD []
    variables_schema := cp.variables_schema.getD []
    labels := cp.labels.getD []
    tags := cp.tags.getD []
    viewers := cp.viewers
    resource_group := cp.resource_group
    version := 1
    user_id := cp.user_id
    project_id := cp.project_id
    workspace_id := cp.workspace_id
    domain_id := cp.domain_id }

/-- The creation params seen as the patch handed to the snapshot
builder. -/
def createPatchOfParams (cp : CreateParams) : Patch :=
  { layouts := cp.layouts
    «variables» := cp.«variables»
    settings := cp.settings
    variables_schema := cp.variables_schema }

/-- `DashboardService.create`: persist the new record, and when any
version-bearing KEY is present in the params — presence alone, no
truthiness or difference test here — create one initial snapshot at the
fresh record's version.  The new record is appended after all existing
rows. -/
def DashboardService.create (cp : CreateParams) (st : Store) : Except Err Store :=
  if cp.layouts.isSome || cp.«variables».isSome || cp.variables_schema.isSome then
    Except.ok
      { recs := st.recs ++ [newDashboardOfParams cp]
        snaps := create_version_by_domain_dashboard_vo (newDashboardOfParams cp)
            (createPatchOfParams cp) :: st.snaps }
  else
    Except.ok { st with recs := st.recs ++ [newDashboardOfParams cp] }

/-- The ownership filter clause the list/stat bodies append:
`{"k": "user_id", "v": [caller, None], "o": "in"}`; values are
`Option String` with `none` standing for Python `None`. -/
structure FilterClause where
  k : String
  v : List (Option String)
  o : String
deriving DecidableEq, Repr

/-- The caller-facing query shape: only the `filter` list is relevant to
the scoping behaviour. -/
structure Query where
  filter : List FilterClause
deriving DecidableEq, Repr

/-- The clause appended by `DashboardService.list` and
`DashboardService.stat`. -/
def ownershipClause (caller : String) : FilterClause :=
  { k := "user_id", v := [some caller, none], o := "in" }

/-- The query `DashboardService.list` hands to the record store: the
caller-supplied filter list with the ownership clause appended. -/
def DashboardService.listQuery (caller : String) (q : Query) : Query :=
  { q with filter := q.filter ++ [ownershipClause caller] }

/-- The query `DashboardService.stat` hands to the record store: built
by the same appending body as `list`. -/
def DashboardService.statQuery (caller : String) (q : Query) : Query :=
  { q with filter := q.filter ++ [ownershipClause caller] }

/-- One service invocation, for reasoning about sequences of
operations. -/
inductive Op where
  | createOp : CreateParams → Op
  | updateOp : String → String → String → Patch → Op
  | deleteOp : String → String → String → Op
  | deleteVersionOp : String → String → Nat → String → Op
  | revertVersionOp : String → String → Nat → String → Op
  | getOp : String → String → String → Op
  | getVersionOp : String → String → Nat → String → Op
  | listVersionsOp : String → String → String → Op
  | listOp : String → Query → Op
  | statOp : String → Query → Op
deriving DecidableEq, Repr

/-- Effect of one service invocation on the document store.  Read-only
operations keep the store; `list`/`stat` only build a scoped query. -/
def applyOp (st : Store) : Op → Except Err Store
  | Op.createOp cp => DashboardService.create cp st
  | Op.updateOp caller did dom p => DashboardService.update caller did dom p st
  | Op.deleteOp caller did dom => DashboardService.delete caller did dom st
  | Op.deleteVersionOp caller did v dom =>
      DashboardService.delete_version caller did v dom st
  | Op.revertVersionOp caller did v dom =>
      DashboardService.revert_version caller did v dom st
  | Op.getOp caller did dom => (DashboardService.get caller did dom st).map (fun _ => st)
  | Op.getVersionOp caller did v dom =>
      (DashboardService.get_version caller did v dom st).map (fun _ => st)
  | Op.listVersionsOp caller did dom =>
      (DashboardService.list_versions caller did dom st).map (fun _ => st)
  | Op.listOp _ _ => Except.ok st
  | Op.statOp _ _ => Except.ok st

/-- Resulting store of one invocation; a failed operation surfaces its
error to the caller and leaves the store as it was. -/
def runOp (st : Store) (op : Op) : Store :=
  match applyOp st op with
  | Except.ok st2 => st2
  | Except.error _ => st

/-- The two operations whose success path bumps the version counter. -/
def isVersionBump : Op → Bool
  | Op.updateOp _ _ _ _ => true
  | Op.revertVersionOp _ _ _ _ => true
  | _ => false

/-- The addressed record exists at every intermediate state of a run
(the record is never deleted and re-created along the way). -/
def presentThrough (did dom : String) : Store → List Op → Bool
  | st, [] => (getDashboard st did dom).isSome
  | st, op :: ops =>
      (getDashboard st did dom).isSome && presentThrough did dom (runOp st op) ops

/-- A concrete dashboard used to instantiate the theorems below. -/
def sampleRec : Dashboard :=
  { dashboard_id := "dash-1"
    name := "main"
    dashboard_type := "DOMAIN"
    layouts := [Val.vint 1]
    «variables» := [("k", Val.vint 1)]
    settings := [("s", Val.vint 1)]
    variables_schema := [("sch", Val.vint 1)]
    labels := []
    tags := []
    viewers := "PUBLIC"
    resource_group := "DOMAIN"
    version := 3
    user_id := "u1"
    project_id := "p1"
    workspace_id := "w1"
    domain_id := "dom-1" }

/-- A concrete private dashboard owned by `u1`. -/
def samplePrivateRec : Dashboard :=
  { sampleRec with dashboard_id := "dash-2", viewers := "PRIVATE" }

/-- A concrete snapshot of `sampleRec` at version 2. -/
def sampleSnap : Snapshot :=
  { dashboard_id := "dash-1"
    version := 2
    layouts := [Val.vint 9]
    «variables» := [("k", Val.vint 9)]
    settings := []
    variables_schema := [("sch", Val.vint 9)]
    domain_id := "dom-1" }

/-- A concrete store holding the two sample dashboards and the sample
snapshot. -/
def sampleStore : Store :=
  { recs := [sampleRec, samplePrivateRec], snaps := [sampleSnap] }

/-- A found record carries the key it was looked up by. -/
theorem getDashboard_key (st : Store) (did dom : String) (r : Dashboard)
    (h : getDashboard st did dom = some r) :
    r.dashboard_id = did ∧ r.domain_id = dom := by
  have hp := List.find?_some h
  simpa [Bool.and_eq_true, beq_iff_eq] using hp

/-- A found snapshot carries the key it was looked up by. -/
theorem getSnapshot_key (st : Store) (did : String) (v : Nat) (dom : String)
    (s : Snapshot) (h : getSnapshot st did v dom = some s) :
    s.dashboard_id = did ∧ s.version = v ∧ s.domain_id = dom := by
  have hp := List.find?_some h
  have hp2 : (s.dashboard_id = did ∧ s.version = v) ∧ s.domain_id = dom := by
    simpa [Bool.and_eq_true, beq_iff_eq] using hp
  exact ⟨hp2.1.1, hp2.1.2, hp2.2⟩

/-- Replacing the snapshots collection does not affect record lookup. -/
theorem getDashboard_setSnaps (st : Store) (sn : List Snapshot) (did dom : String) :
    getDashboard { st with snaps := sn } did dom = getDashboard st did dom := rfl

/-- Effect of a record write on an arbitrary record lookup: the looked-up
row is replaced exactly when its key equals the written record's key. -/
theorem getDashboard_put (st : Store) (r2 : Dashboard) (did dom : String) :
    getDashboard (putDashboard st r2) did dom =
      (getDashboard st did dom).map (fun r =>
        if r.dashboard_id == r2.dashboard_id && r.domain_id == r2.domain_id then r2
        else r) := by
  unfold getDashboard putDashboard
  rw [List.find?_map]
  have hg : (fun r : Dashboard => r.dashboard_id == did && r.domain_id == dom) ∘
      (fun r => if r.dashboard_id == r2.dashboard_id && r.domain_id == r2.domain_id
        then r2 else r) =
      (fun r : Dashboard => r.dashboard_id == did && r.domain_id == dom) := by
    funext x
    by_cases hc : (x.dashboard_id == r2.dashboard_id && x.domain_id == r2.domain_id) = true
    · have hx : x.dashboard_id = r2.dashboard_id ∧ x.domain_id = r2.domain_id := by
        simpa [Bool.and_eq_true, beq_iff_eq] using hc
      simp [Function.comp, hc, hx.1, hx.2]
    · simp [Function.comp, hc]
  rw [hg]

/-- Writing a record with the key of a looked-up record makes the lookup
return the written record. -/
theorem getDashboard_put_self (st : Store) (vo r2 : Dashboard) (did dom : String)
    (h : getDashboard st did dom = some vo)
    (h1 : r2.dashboard_id = vo.dashboard_id) (h2 : r2.domain_id = vo.domain_id) :
    getDashboard (putDashboard st r2) did dom = some r2 := by
  rw [getDashboard_put, h]
  simp [h1, h2]

/-- Two successful lookups whose results share a key return the same
record. -/
theorem getDashboard_same_key (st : Store) (did dom d2 m2 : String) (r vo : Dashboard)
    (hr : getDashboard st did dom = some r) (hg : getDashboard st d2 m2 = some vo)
    (h1 : r.dashboard_id = vo.dashboard_id) (h2 : r.domain_id = vo.domain_id) :
    r = vo := by
  have k1 := getDashboard_key st did dom r hr
  have k2 := getDashboard_key st d2 m2 vo hg
  have e1 : did = d2 := by rw [← k1.1, h1, k2.1]
  have e2 : dom = m2 := by rw [← k1.2, h2, k2.2]
  subst e1
  subst e2
  rw [hr] at hg
  exact Option.some.inj hg

/-- Filtering by a predicate implied by the search predicate does not
change the first match. -/
theorem find?_filter_of_imp {α : Type} (l : List α) (p q : α → Bool)
    (h : ∀ x, p x = true → q x = true) : (l.filter q).find? p = l.find? p := by
  induction l with
  | nil => rfl
  | cons x xs ih =>
    by_cases hq : q x = true
    · by_cases hp : p x = true
      · simp [List.filter_cons, hq, List.find?_cons, hp]
      · simp [List.filter_cons, hq, List.find?_cons, hp, ih]
    · have hp : ¬p x = true := fun hpx => hq (h x hpx)
      simp [List.filter_cons, hq, List.find?_cons, hp, ih]

/-- Defaulting the name does not change the version-worthiness verdict
(the verdict only reads the three version-bearing fields). -/
theorem hasVersionKey_nameDefault (vo : Dashboard) (p : Patch) :
    hasVersionKeyInParams vo (applyNameDefault vo p) = hasVersionKeyInParams vo p := by
  cases hn : p.name <;> simp [applyNameDefault, hn, hasVersionKeyInParams]

/-- Merging settings does not change the version-worthiness verdict
(`settings` is not version-bearing). -/
theorem hasVersionKey_settingsMerge (vo : Dashboard) (p : Patch) :
    hasVersionKeyInParams vo (applySettingsMerge vo p) = hasVersionKeyInParams vo p := by
  cases hs : p.settings <;> simp [applySettingsMerge, hs, hasVersionKeyInParams]

/-- A truthy (present, non-empty) version-bearing value that differs
from the record's current value makes the mutation version-worthy. -/
theorem hasVersionKey_of_changed (vo : Dashboard) (p : Patch)
    (h : (∃ l, getTruthyL p.layouts = some l ∧ vo.layouts ≠ l) ∨
         (∃ d, getTruthyD p.«variables» = some d ∧ vo.«variables» ≠ d) ∨
         (∃ d, getTruthyD p.variables_schema = some d ∧ d ≠ vo.variables_schema)) :
    hasVersionKeyInParams vo p = true := by
  unfold hasVersionKeyInParams
  rcases h with ⟨l, hl, hne⟩ | ⟨d, hd, hne⟩ | ⟨d, hd, hne⟩
  · have hsome : p.layouts.isSome = true := by
      cases hp : p.layouts
      · rw [hp] at hl; simp [getTruthyL] at hl
      · simp
    simp [hsome, hl, bne_iff_ne, hne]
  · have hsome : p.«variables».isSome = true := by
      cases hp : p.«variables»
      · rw [hp] at hd; simp [getTruthyD] at hd
      · simp
    simp [hsome, hd, bne_iff_ne, hne]
  · have hsome : p.variables_schema.isSome = true := by
      cases hp : p.variables_schema
      · rw [hp] at hd; simp [getTruthyD] at hd
      · simp
    simp [hsome, hd, bne_iff_ne, hne]

/-- When every truthy version-bearing value in the patch equals the
record's current value, the mutation is not version-worthy (covers also
absent and empty values, for which the truthy test already fails). -/
theorem hasVersionKey_false (vo : Dashboard) (p : Patch)
    (hl : ∀ l, getTruthyL p.layouts = some l → vo.layouts = l)
    (hv : ∀ d, getTruthyD p.«variables» = some d → vo.«variables» = d)
    (hs : ∀ d, getTruthyD p.variables_schema = some d → vo.variables_schema = d) :
    hasVersionKeyInParams vo p = false := by
  have c1 : (match getTruthyL p.layouts with
      | some l => vo.layouts != l
      | none => false) = false := by
    cases htl : getTruthyL p.layouts with
    | none => rfl
    | some l => simp [hl l htl]
  have c2 : (match getTruthyD p.«variables» with
      | some d => vo.«variables» != d
      | none => false) = false := by
    cases htv : getTruthyD p.«variables» with
    | none => rfl
    | some d => simp [hv d htv]
  have c3 : (match getTruthyD p.variables_schema with
      | some d => d != vo.variables_schema
      | none => false) = false := by
    cases hts : getTruthyD p.variables_schema with
    | none => rfl
    | some d => simp [hs d hts]
  unfold hasVersionKeyInParams
  split
  · rw [c1, c2, c3]
    rfl
  · rfl

/-- Shape of a successful version-worthy update: bump the counter,
prepend one snapshot, persist the patched record. -/
theorem update_worthy_ok (caller did dom : String) (p : Patch) (st : Store)
    (vo : Dashboard)
    (hget : getDashboard st did dom = some vo)
    (hauth : checkAccess vo caller = false)
    (hw : hasVersionKeyInParams vo (applySettingsMerge vo (applyNameDefault vo p)) = true) :
    DashboardService.update caller did dom p st =
      Except.ok (putDashboard
        { putDashboard st (increase_version vo) with
          snaps := create_version_by_domain_dashboard_vo (increase_version vo)
              (applySettingsMerge vo (applyNameDefault vo p)) :: st.snaps }
        (update_domain_dashboard_by_vo
          (applySettingsMerge vo (applyNameDefault vo p)) (increase_version vo))) := by
  unfold DashboardService.update
  rw [hget]
  simp [hauth, hw]

/-- Shape of a successful not-version-worthy update: persist the patched
record, touch neither the counter nor the snapshots. -/
theorem update_not_worthy_ok (caller did dom : String) (p : Patch) (st : Store)
    (vo : Dashboard)
    (hget : getDashboard st did dom = some vo)
    (hauth : checkAccess vo caller = false)
    (hw : hasVersionKeyInParams vo (applySettingsMerge vo (applyNameDefault vo p)) = false) :
    DashboardService.update caller did dom p st =
      Except.ok (putDashboard st
        (update_domain_dashboard_by_vo
          (applySettingsMerge vo (applyNameDefault vo p)) vo)) := by
  unfold DashboardService.update
  rw [hget]
  simp [hauth, hw]

/-- Filtering by a predicate that excludes every possible match empties
the search. -/
theorem find?_filter_eq_none {α : Type} (l : List α) (p q : α → Bool)
    (h : ∀ x, p x = true → q x = false) : (l.filter q).find? p = none := by
  cases hf : (l.filter q).find? p with
  | none => rfl
  | some a =>
    have h1 := List.find?_some hf
    have h2 := List.mem_filter.mp (List.mem_of_find?_eq_some hf)
    rw [h a h1] at h2
    exact absurd h2.2 (by simp)


/-- Record lookup after the version-worthy write sequence (bump the
counter, prepend a snapshot, write the patched record) returns the
patched record, for any record whose key matches the fetched one. -/
theorem getDashboard_after_bump (st : Store) (vo r2 : Dashboard) (sn : List Snapshot)
    (did dom : String) (hget : getDashboard st did dom = some vo)
    (h1 : r2.dashboard_id = vo.dashboard_id) (h2 : r2.domain_id = vo.domain_id) :
    getDashboard (putDashboard { putDashboard st (increase_version vo) with snaps := sn } r2)
      did dom = some r2 := by
  have hA : getDashboard (putDashboard st (increase_version vo)) did dom =
      some (increase_version vo) :=
    getDashboard_put_self st vo (increase_version vo) did dom hget rfl rfl
  have hss : getDashboard
      (putDashboard { putDashboard st (increase_version vo) with snaps := sn } r2) did dom =
      getDashboard (putDashboard (putDashboard st (increase_version vo)) r2) did dom := rfl
  rw [hss]
  exact getDashboard_put_self (putDashboard st (increase_version vo))
    (increase_version vo) r2 did dom hA h1 h2

/-- Claim C1 as stated is refuted by the code: the patch carries the
version-bearing key `layouts` with a new value (the empty list) that
differs under deep equality from the record's current value
`[Val.vint 1]`, yet `_has_version_key_in_params` skips falsy (empty)
values, so the update creates no snapshot and leaves the version
counter at 3. -/
theorem C1_counterexample :
    sampleRec.layouts ≠ [] ∧
    DashboardService.update "u1" "dash-1" "dom-1" { layouts := some [] } sampleStore =
      Except.ok
        { recs := [{ sampleRec with layouts := [] }, samplePrivateRec]
          snaps := [sampleSnap] } ∧
    ({ sampleRec with layouts := ([] : List Val) } : Dashboard).version =
      sampleRec.version := by
  refine ⟨by decide, by rfl, rfl⟩

/-- Claim C1 (amended): for every update of an existing dashboard whose
patch contains at least one version-bearing field whose new value is
non-empty and differs under deep equality from the record's current
value, the update creates exactly one new version snapshot, increments
the record's version counter by exactly 1, and the snapshot's version
number equals the record's new current version. -/
theorem C1_update_changed_creates_snapshot (caller did dom : String) (p : Patch)
    (st : Store) (vo : Dashboard)
    (hget : getDashboard st did dom = some vo)
    (hauth : checkAccess vo caller = false)
    (hchanged : (∃ l, getTruthyL p.layouts = some l ∧ vo.layouts ≠ l) ∨
        (∃ d, getTruthyD p.«variables» = some d ∧ vo.«variables» ≠ d) ∨
        (∃ d, getTruthyD p.variables_schema = some d ∧ d ≠ vo.variables_schema)) :
    ∃ st2 snap vo2,
      DashboardService.update caller did dom p st = Except.ok st2 ∧
      st2.snaps = snap :: st.snaps ∧
      getDashboard st2 did dom = some vo2 ∧
      vo2.version = vo.version + 1 ∧
      snap.version = vo2.version := by
  have hw : hasVersionKeyInParams vo
      (applySettingsMerge vo (applyNameDefault vo p)) = true := by
    rw [hasVersionKey_settingsMerge, hasVersionKey_nameDefault]
    exact hasVersionKey_of_changed vo p hchanged
  rw [update_worthy_ok caller did dom p st vo hget hauth hw]
  refine ⟨_,
    create_version_by_domain_dashboard_vo (increase_version vo)
      (applySettingsMerge vo (applyNameDefault vo p)),
    update_domain_dashboard_by_vo (applySettingsMerge vo (applyNameDefault vo p))
      (increase_version vo),
    rfl, rfl, ?_, rfl, rfl⟩
  exact getDashboard_after_bump st vo _ _ did dom hget rfl rfl

/-- Witness for the amended claim C1 at a concrete input. -/
theorem C1_witness :
    ∃ st2 snap vo2,
      DashboardService.update "u1" "dash-1" "dom-1" { layouts := some [Val.vint 2] }
          sampleStore = Except.ok st2 ∧
      st2.snaps = snap :: sampleStore.snaps ∧
      getDashboard st2 "dash-1" "dom-1" = some vo2 ∧
      vo2.version = sampleRec.version + 1 ∧
      snap.version = vo2.version :=
  C1_update_changed_creates_snapshot "u1" "dash-1" "dom-1"
    { layouts := some [Val.vint 2] } sampleStore sampleRec (by rfl) (by rfl)
    (Or.inl ⟨[Val.vint 2], by rfl, by decide⟩)

/-- Claim C2: for every update of an existing dashboard whose patch's
version-bearing fields, where present, are all deep-equal to the
record's current values, the update creates no snapshot and leaves the
version counter unchanged (whether or not version-bearing keys are
present). -/
theorem C2_noop_update_no_snapshot (caller did dom : String) (p : Patch) (st : Store)
    (vo : Dashboard)
    (hget : getDashboard st did dom = some vo)
    (hauth : checkAccess vo caller = false)
    (hl : p.layouts = none ∨ p.layouts = some vo.layouts)
    (hv : p.«variables» = none ∨ p.«variables» = some vo.«variables»)
    (hs : p.variables_schema = none ∨ p.variables_schema = some vo.variables_schema) :
    ∃ st2, DashboardService.update caller did dom p st = Except.ok st2 ∧
      st2.snaps = st.snaps ∧
      ∃ vo2, getDashboard st2 did dom = some vo2 ∧ vo2.version = vo.version := by
  have hw : hasVersionKeyInParams vo
      (applySettingsMerge vo (applyNameDefault vo p)) = false := by
    rw [hasVersionKey_settingsMerge, hasVersionKey_nameDefault]
    apply hasVersionKey_false
    · intro l htl
      rcases hl with h | h
      · rw [h] at htl; simp [getTruthyL] at htl
      · rw [h] at htl
        by_cases he : vo.layouts.isEmpty
        · simp [getTruthyL, he] at htl
        · simp [getTruthyL, he] at htl; exact htl
    · intro d htd
      rcases hv with h | h
      · rw [h] at htd; simp [getTruthyD] at htd
      · rw [h] at htd
        by_cases he : vo.«variables».isEmpty
        · simp [getTruthyD, he] at htd
        · simp [getTruthyD, he] at htd; exact htd
    · intro d htd
      rcases hs with h | h
      · rw [h] at htd; simp [getTruthyD] at htd
      · rw [h] at htd
        by_cases he : vo.variables_schema.isEmpty
        · simp [getTruthyD, he] at htd
        · simp [getTruthyD, he] at htd; exact htd
  rw [update_not_worthy_ok caller did dom p st vo hget hauth hw]
  refine ⟨_, rfl, rfl,
    update_domain_dashboard_by_vo (applySettingsMerge vo (applyNameDefault vo p)) vo,
    ?_, rfl⟩
  exact getDashboard_put_self st vo _ did dom hget rfl rfl

/-- Witness for claim C2 at a concrete input: the patch carries all
three version-bearing keys with values deep-equal to the current state. -/
theorem C2_witness :
    ∃ st2, DashboardService.update "u1" "dash-1" "dom-1"
        { layouts := some sampleRec.layouts
          «variables» := some sampleRec.«variables»
          variables_schema := some sampleRec.variables_schema } sampleStore =
        Except.ok st2 ∧
      st2.snaps = sampleStore.snaps ∧
      ∃ vo2, getDashboard st2 "dash-1" "dom-1" = some vo2 ∧
        vo2.version = sampleRec.version :=
  C2_noop_update_no_snapshot "u1" "dash-1" "dom-1" _ sampleStore sampleRec
    (by rfl) (by rfl) (Or.inr rfl) (Or.inr rfl) (Or.inr rfl)

/-- Claim C10: an update whose patch carries at least one version-bearing
key while every version-bearing field present in the patch is empty is
treated as not version-worthy — no snapshot, version unchanged — even
when the record's current values are non-empty and therefore differ. -/
theorem C10_empty_values_not_worthy (caller did dom : String) (p : Patch) (st : Store)
    (vo : Dashboard)
    (hget : getDashboard st did dom = some vo)
    (hauth : checkAccess vo caller = false)
    (_hpresent : p.layouts.isSome ∨ p.«variables».isSome ∨ p.variables_schema.isSome)
    (hl : p.layouts = none ∨ p.layouts = some [])
    (hv : p.«variables» = none ∨ p.«variables» = some [])
    (hs : p.variables_schema = none ∨ p.variables_schema = some []) :
    ∃ st2, DashboardService.update caller did dom p st = Except.ok st2 ∧
      st2.snaps = st.snaps ∧
      ∃ vo2, getDashboard st2 did dom = some vo2 ∧ vo2.version = vo.version := by
  have hw : hasVersionKeyInParams vo
      (applySettingsMerge vo (applyNameDefault vo p)) = false := by
    rw [hasVersionKey_settingsMerge, hasVersionKey_nameDefault]
    apply hasVersionKey_false
    · intro l htl
      rcases hl with h | h <;> rw [h] at htl <;> simp [getTruthyL] at htl
    · intro d htd
      rcases hv with h | h <;> rw [h] at htd <;> simp [getTruthyD] at htd
    · intro d htd
      rcases hs with h | h <;> rw [h] at htd <;> simp [getTruthyD] at htd
  rw [update_not_worthy_ok caller did dom p st vo hget hauth hw]
  refine ⟨_, rfl, rfl,
    update_domain_dashboard_by_vo (applySettingsMerge vo (applyNameDefault vo p)) vo,
    ?_, rfl⟩
  exact getDashboard_put_self st vo _ did dom hget rfl rfl

/-- Witness for claim C10 at a concrete input: all three version-bearing
keys present with empty values, while the record's current values are
non-empty. -/
theorem C10_witness :
    sampleRec.layouts ≠ [] ∧
    ∃ st2, DashboardService.update "u1" "dash-1" "dom-1"
        { layouts := some [], «variables» := some [], variables_schema := some [] }
        sampleStore = Except.ok st2 ∧
      st2.snaps = sampleStore.snaps ∧
      ∃ vo2, getDashboard st2 "dash-1" "dom-1" = some vo2 ∧
        vo2.version = sampleRec.version :=
  ⟨by decide,
    C10_empty_values_not_worthy "u1" "dash-1" "dom-1" _ sampleStore sampleRec
      (by rfl) (by rfl) (Or.inl (by rfl)) (Or.inr rfl) (Or.inr rfl) (Or.inr rfl)⟩

/-- Claim C3: for an existing dashboard (with the access gate passing),
`delete_version` on the record's current version always fails with
`LatestVersionError` carrying the requested version and deletes nothing;
on any other version it delegates deletion to the version store, after
which the addressed snapshot is gone and the record collection is
untouched. -/
theorem C3_delete_version_latest_guard (caller did dom : String) (v : Nat) (st : Store)
    (vo : Dashboard)
    (hget : getDashboard st did dom = some vo)
    (hauth : checkAccess vo caller = false) :
    (v = vo.version →
      DashboardService.delete_version caller did v dom st =
        Except.error (Err.latestVersion v) ∧
      runOp st (Op.deleteVersionOp caller did v dom) = st) ∧
    (v ≠ vo.version → ∀ snap, getSnapshot st did v dom = some snap →
      ∃ st2, DashboardService.delete_version caller did v dom st = Except.ok st2 ∧
        st2.recs = st.recs ∧ getSnapshot st2 did v dom = none) := by
  constructor
  · intro hv
    have heq : (vo.version == v) = true := by simp [hv]
    have hres : DashboardService.delete_version caller did v dom st =
        Except.error (Err.latestVersion v) := by
      unfold DashboardService.delete_version
      rw [hget]
      simp [hauth, heq]
    refine ⟨hres, ?_⟩
    simp [runOp, applyOp, hres]
  · intro hv snap hsnap
    have heq : (vo.version == v) = false := by simp [Ne.symm hv]
    have hres : DashboardService.delete_version caller did v dom st =
        versionStoreDeleteOne st did v dom := by
      unfold DashboardService.delete_version
      rw [hget]
      simp [hauth, heq]
    rw [hres]
    unfold versionStoreDeleteOne
    rw [hsnap]
    refine ⟨_, rfl, rfl, ?_⟩
    exact find?_filter_eq_none st.snaps _ _ (by intro x hx; simp [hx])

/-- Witness for claim C3 at a concrete input: version 3 is current and
is refused; version 2 exists and is deleted. -/
theorem C3_witness :
    (DashboardService.delete_version "u1" "dash-1" 3 "dom-1" sampleStore =
        Except.error (Err.latestVersion 3) ∧
      runOp sampleStore (Op.deleteVersionOp "u1" "dash-1" 3 "dom-1") = sampleStore) ∧
    (∃ st2, DashboardService.delete_version "u1" "dash-1" 2 "dom-1" sampleStore =
        Except.ok st2 ∧
      st2.recs = sampleStore.recs ∧ getSnapshot st2 "dash-1" 2 "dom-1" = none) :=
  ⟨(C3_delete_version_latest_guard "u1" "dash-1" "dom-1" 3 sampleStore sampleRec
      (by rfl) (by rfl)).1 rfl,
    (C3_delete_version_latest_guard "u1" "dash-1" "dom-1" 2 sampleStore sampleRec
      (by rfl) (by rfl)).2 (by decide) sampleSnap (by rfl)⟩

/-- Claim C4: reverting to an existing snapshot copies the snapshot's
three version-bearing fields into the record, increments the version
counter by 1, and creates a new snapshot carrying the reverted content
at the new version number; the counter always moves forward and is
never set back to the reverted-to version (except in the degenerate case
where that version is already the next sequential number). -/
theorem C4_revert_moves_forward (caller did : String) (v : Nat) (dom : String)
    (st : Store) (vo : Dashboard) (snap : Snapshot)
    (hget : getDashboard st did dom = some vo)
    (hauth : checkAccess vo caller = false)
    (hsnap : getSnapshot st did v dom = some snap) :
    ∃ st2 vo2 snap2,
      DashboardService.revert_version caller did v dom st = Except.ok st2 ∧
      getDashboard st2 did dom = some vo2 ∧
      vo2.layouts = snap.layouts ∧
      vo2.«variables» = snap.«variables» ∧
      vo2.variables_schema = snap.variables_schema ∧
      vo2.version = vo.version + 1 ∧
      st2.snaps = snap2 :: st.snaps ∧
      snap2.version = vo2.version ∧
      snap2.layouts = snap.layouts ∧
      snap2.«variables» = snap.«variables» ∧
      snap2.variables_schema = snap.variables_schema ∧
      (v ≠ vo.version + 1 → vo2.version ≠ v) := by
  unfold DashboardService.revert_version
  rw [hget]
  simp only [hauth, Bool.false_eq_true, if_false, hsnap]
  refine ⟨_,
    update_domain_dashboard_by_vo
      { layouts := some snap.layouts
        «variables» := some snap.«variables»
        variables_schema := some snap.variables_schema } (increase_version vo),
    create_version_by_domain_dashboard_vo (increase_version vo)
      { layouts := some snap.layouts
        «variables» := some snap.«variables»
        variables_schema := some snap.variables_schema },
    rfl, ?_, rfl, rfl, rfl, rfl, rfl, rfl, rfl, rfl, rfl, fun h => Ne.symm h⟩
  exact getDashboard_after_bump st vo _ _ did dom hget rfl rfl

/-- Witness for claim C4 at a concrete input: reverting `sampleRec`
(version 3) to snapshot version 2. -/
theorem C4_witness :
    ∃ st2 vo2 snap2,
      DashboardService.revert_version "u1" "dash-1" 2 "dom-1" sampleStore =
        Except.ok st2 ∧
      getDashboard st2 "dash-1" "dom-1" = some vo2 ∧
      vo2.layouts = sampleSnap.layouts ∧
      vo2.«variables» = sampleSnap.«variables» ∧
      vo2.variables_schema = sampleSnap.variables_schema ∧
      vo2.version = sampleRec.version + 1 ∧
      st2.snaps = snap2 :: sampleStore.snaps ∧
      snap2.version = vo2.version ∧
      snap2.layouts = sampleSnap.layouts ∧
      snap2.«variables» = sampleSnap.«variables» ∧
      snap2.variables_schema = sampleSnap.variables_schema ∧
      (2 ≠ sampleRec.version + 1 → vo2.version ≠ 2) :=
  C4_revert_moves_forward "u1" "dash-1" 2 "dom-1" sampleStore sampleRec sampleSnap
    (by rfl) (by rfl) (by rfl)

/-- Claim C5: on a PRIVATE record a caller other than the owner is
denied (`PermissionDenied`) by every one of update, delete, get,
delete_version, revert_version, get_version and list_versions, and the
mutating operations leave the store unchanged; for the owner, or for a
non-PRIVATE record, the gate never produces `PermissionDenied`. -/
theorem C5_access_gate (caller did dom : String) (v : Nat) (p : Patch) (st : Store)
    (vo : Dashboard)
    (hget : getDashboard st did dom = some vo) :
    (vo.viewers = "PRIVATE" → vo.user_id ≠ caller →
      DashboardService.update caller did dom p st = Except.error Err.permissionDenied ∧
      DashboardService.delete caller did dom st = Except.error Err.permissionDenied ∧
      DashboardService.get caller did dom st = Except.error Err.permissionDenied ∧
      DashboardService.delete_version caller did v dom st =
        Except.error Err.permissionDenied ∧
      DashboardService.revert_version caller did v dom st =
        Except.error Err.permissionDenied ∧
      DashboardService.get_version caller did v dom st =
        Except.error Err.permissionDenied ∧
      DashboardService.list_versions caller did dom st =
        Except.error Err.permissionDenied ∧
      runOp st (Op.updateOp caller did dom p) = st ∧
      runOp st (Op.deleteOp caller did dom) = st ∧
      runOp st (Op.deleteVersionOp caller did v dom) = st ∧
      runOp st (Op.revertVersionOp caller did v dom) = st) ∧
    ((vo.viewers ≠ "PRIVATE" ∨ vo.user_id = caller) →
      DashboardService.update caller did dom p st ≠ Except.error Err.permissionDenied ∧
      DashboardService.delete caller did dom st ≠ Except.error Err.permissionDenied ∧
      DashboardService.get caller did dom st ≠ Except.error Err.permissionDenied ∧
      DashboardService.delete_version caller did v dom st ≠
        Except.error Err.permissionDenied ∧
      DashboardService.revert_version caller did v dom st ≠
        Except.error Err.permissionDenied ∧
      DashboardService.get_version caller did v dom st ≠
        Except.error Err.permissionDenied ∧
      DashboardService.list_versions caller did dom st ≠
        Except.error Err.permissionDenied) := by
  constructor
  · intro hviewers huser
    have hca : checkAccess vo caller = true := by
      simp [checkAccess, hviewers, bne_iff_ne, huser]
    have h1 : DashboardService.update caller did dom p st =
        Except.error Err.permissionDenied := by
      unfold DashboardService.update; rw [hget]; simp [hca]
    have h2 : DashboardService.delete caller did dom st =
        Except.error Err.permissionDenied := by
      unfold DashboardService.delete; rw [hget]; simp [hca]
    have h3 : DashboardService.get caller did dom st =
        Except.error Err.permissionDenied := by
      unfold DashboardService.get; rw [hget]; simp [hca]
    have h4 : DashboardService.delete_version caller did v dom st =
        Except.error Err.permissionDenied := by
      unfold DashboardService.delete_version; rw [hget]; simp [hca]
    have h5 : DashboardService.revert_version caller did v dom st =
        Except.error Err.permissionDenied := by
      unfold DashboardService.revert_version; rw [hget]; simp [hca]
    have h6 : DashboardService.get_version caller did v dom st =
        Except.error Err.permissionDenied := by
      unfold DashboardService.get_version; rw [hget]; simp [hca]
    have h7 : DashboardService.list_versions caller did dom st =
        Except.error Err.permissionDenied := by
      unfold DashboardService.list_versions; rw [hget]; simp [hca]
    exact ⟨h1, h2, h3, h4, h5, h6, h7,
      by simp [runOp, applyOp, h1], by simp [runOp, applyOp, h2],
      by simp [runOp, applyOp, h4], by simp [runOp, applyOp, h5]⟩
  · intro hallow
    have hca : checkAccess vo caller = false := by
      rcases hallow with h | h <;> simp [checkAccess, h]
    refine ⟨?_, ?_, ?_, ?_, ?_, ?_, ?_⟩
    · unfold DashboardService.update; rw [hget]; simp [hca]
      split <;> simp
    · unfold DashboardService.delete; rw [hget]; simp [hca]
    · unfold DashboardService.get; rw [hget]; simp [hca]
    · unfold DashboardService.delete_version; rw [hget]; simp [hca]
      split
      · simp
      · unfold versionStoreDeleteOne
        split <;> simp
    · unfold DashboardService.revert_version; rw [hget]; simp [hca]
      split <;> simp
    · unfold DashboardService.get_version; rw [hget]; simp [hca]
      split <;> simp
    · unfold DashboardService.list_versions; rw [hget]; simp [hca]

/-- Witness for claim C5 at a concrete input: the private record
`dash-2` owned by `u1` denies a read by `u2`, allows one by `u1`. -/
theorem C5_witness :
    DashboardService.get "u2" "dash-2" "dom-1" sampleStore =
      Except.error Err.permissionDenied ∧
    DashboardService.get "u1" "dash-2" "dom-1" sampleStore ≠
      Except.error Err.permissionDenied := by
  constructor
  · exact ((C5_access_gate "u2" "dash-2" "dom-1" 1 {} sampleStore samplePrivateRec
      (by rfl)).1 (by rfl) (by decide)).2.2.1
  · exact ((C5_access_gate "u1" "dash-2" "dom-1" 1 {} sampleStore samplePrivateRec
      (by rfl)).2 (Or.inr rfl)).2.2.1

/-- Lookup distributes over dict concatenation, preferring the left
part. -/
theorem dlookup_append (a b : Dict) (k : String) :
    dlookup (a ++ b) k = (dlookup a k).or (dlookup b k) := by
  unfold dlookup
  rw [List.find?_append]
  cases a.find? (fun kv => kv.1 == k) <;> simp [Option.or]

/-- Lookup after a key-preserving per-entry substitution. -/
theorem dlookup_keyPreserving_map (old : Dict) (f : String × Val → String × Val)
    (hf : ∀ kv, (f kv).1 = kv.1) (k : String) :
    dlookup (old.map f) k =
      (old.find? (fun kv => kv.1 == k)).map (fun kv => (f kv).2) := by
  unfold dlookup
  rw [List.find?_map]
  have hpf : ((fun kv : String × Val => kv.1 == k) ∘ f) =
      (fun kv : String × Val => kv.1 == k) := by
    funext kv
    simp [Function.comp, hf kv]
  rw [hpf, Option.map_map]
  rfl

/-- Key-preserving substitution then append: lookup in `dictUpdate`
prefers the incoming mapping and falls back to the existing one. -/
theorem dlookup_dictUpdate (old new : Dict) (k : String) :
    dlookup (dictUpdate old new) k = (dlookup new k).or (dlookup old k) := by
  unfold dictUpdate
  rw [dlookup_append,
    dlookup_keyPreserving_map old _ (fun kv => by cases h : dlookup new kv.1 <;> simp [h]) k]
  cases ho : old.find? (fun kv : String × Val => kv.1 == k) with
  | some kv =>
    have hk : kv.1 = k := by simpa [beq_iff_eq] using List.find?_some ho
    cases hn : dlookup new k with
    | some v => simp [Option.or, hk, hn]
    | none =>
      have hold : dlookup old k = some kv.2 := by
        unfold dlookup
        rw [ho]
        rfl
      simp [Option.or, hk, hn, hold]
  | none =>
    have hq : ∀ kv : String × Val, (kv.1 == k) = true →
        ((dlookup old kv.1).isNone) = true := by
      intro kv hkv
      have hk : kv.1 = k := by simpa [beq_iff_eq] using hkv
      rw [hk]
      unfold dlookup
      rw [ho]
      rfl
    have hfil2 : List.find? (fun kv : String × Val => kv.1 == k)
        (new.filter (fun kv => (dlookup old kv.1).isNone)) =
        List.find? (fun kv : String × Val => kv.1 == k) new :=
      find?_filter_of_imp new _ _ hq
    have hfil : dlookup (new.filter (fun kv => (dlookup old kv.1).isNone)) k =
        dlookup new k :=
      congrArg (Option.map (fun kv : String × Val => kv.2)) hfil2
    have hold : dlookup old k = none := by
      unfold dlookup
      rw [ho]
      rfl
    rw [hfil, hold]
    cases dlookup new k <;> simp [Option.or]

/-- Claim C7: when a patch includes settings, the result is the shallow
merge of the existing mapping with the incoming mapping (incoming keys
win, existing keys absent from the incoming mapping survive) whenever
the existing settings are non-empty; with absent/empty existing
settings the incoming mapping is returned verbatim.  The spec's two
concrete examples are included. -/
theorem C7_settings_merge_policy :
    (∀ (old new : Dict) (k : String), old ≠ [] →
      dlookup (merge_settings old new) k = (dlookup new k).or (dlookup old k)) ∧
    (∀ new : Dict, merge_settings [] new = new) ∧
    merge_settings [("a", Val.vint 1), ("b", Val.vint 2)]
        [("b", Val.vint 3), ("c", Val.vint 4)] =
      [("a", Val.vint 1), ("b", Val.vint 3), ("c", Val.vint 4)] ∧
    merge_settings [] [("x", Val.vint 1)] = [("x", Val.vint 1)] := by
  refine ⟨?_, fun new => rfl, by decide, by decide⟩
  intro old new k hne
  unfold merge_settings
  rw [if_neg (by simp [hne])]
  exact dlookup_dictUpdate old new k

/-- Witness for claim C7 at a concrete input. -/
theorem C7_witness :
    dlookup (merge_settings [("a", Val.vint 1)] [("b", Val.vint 2)]) "a" =
      (dlookup [("b", Val.vint 2)] "a").or (dlookup [("a", Val.vint 1)] "a") :=
  C7_settings_merge_policy.1 [("a", Val.vint 1)] [("b", Val.vint 2)] "a" (by decide)

/-- Claim C8: deleting a dashboard removes every snapshot carrying the
dashboard's id and then the record itself; afterwards neither the
record nor any of its former snapshots can be fetched, by any caller. -/
theorem C8_delete_cascade (caller did dom : String) (st : Store) (vo : Dashboard)
    (hget : getDashboard st did dom = some vo)
    (hauth : checkAccess vo caller = false) :
    ∃ st2, DashboardService.delete caller did dom st = Except.ok st2 ∧
      getDashboard st2 did dom = none ∧
      (∀ v dom2, getSnapshot st2 did v dom2 = none) ∧
      (∀ caller2, DashboardService.get caller2 did dom st2 =
        Except.error Err.notFound) ∧
      (∀ caller2 v, DashboardService.get_version caller2 did v dom st2 =
        Except.error Err.notFound) := by
  have hdid : vo.dashboard_id = did := (getDashboard_key st did dom vo hget).1
  have hres : DashboardService.delete caller did dom st = Except.ok
      { recs := st.recs.filter (fun r => !(r.dashboard_id == did && r.domain_id == dom))
        snaps := st.snaps.filter (fun s => !(s.dashboard_id == vo.dashboard_id)) } := by
    unfold DashboardService.delete
    rw [hget]
    simp [hauth]
  have hnone : getDashboard
      { recs := st.recs.filter (fun r => !(r.dashboard_id == did && r.domain_id == dom))
        snaps := st.snaps.filter (fun s => !(s.dashboard_id == vo.dashboard_id)) }
      did dom = none :=
    find?_filter_eq_none st.recs _ _ (by intro x hx; simp [hx])
  have hsnone : ∀ v dom2, getSnapshot
      { recs := st.recs.filter (fun r => !(r.dashboard_id == did && r.domain_id == dom))
        snaps := st.snaps.filter (fun s => !(s.dashboard_id == vo.dashboard_id)) }
      did v dom2 = none := by
    intro v dom2
    apply find?_filter_eq_none
    intro x hx
    have h1 : x.dashboard_id = did := by
      simp only [Bool.and_eq_true, beq_iff_eq] at hx
      exact hx.1.1
    simp [h1, hdid]
  rw [hres]
  refine ⟨_, rfl, hnone, hsnone, ?_, ?_⟩
  · intro caller2
    unfold DashboardService.get
    rw [hnone]
  · intro caller2 v
    unfold DashboardService.get_version
    rw [hnone]

/-- Witness for claim C8 at a concrete input. -/
theorem C8_witness :
    ∃ st2, DashboardService.delete "u1" "dash-1" "dom-1" sampleStore = Except.ok st2 ∧
      getDashboard st2 "dash-1" "dom-1" = none ∧
      (∀ v dom2, getSnapshot st2 "dash-1" v dom2 = none) ∧
      (∀ caller2, DashboardService.get caller2 "dash-1" "dom-1" st2 =
        Except.error Err.notFound) ∧
      (∀ caller2 v, DashboardService.get_version caller2 "dash-1" v "dom-1" st2 =
        Except.error Err.notFound) :=
  C8_delete_cascade "u1" "dash-1" "dom-1" sampleStore sampleRec (by rfl) (by rfl)

/-- Claim C9: both `list` and `stat` hand the document store the
caller-supplied filter clauses with the ownership clause
(`user_id` in `[caller, null]`) appended; the clause is always present
and every caller-supplied clause is preserved, so no filter input can
remove or bypass it. -/
theorem C9_ownership_filter (caller : String) (q : Query) :
    (DashboardService.listQuery caller q).filter =
      q.filter ++ [ownershipClause caller] ∧
    (DashboardService.statQuery caller q).filter =
      q.filter ++ [ownershipClause caller] ∧
    ownershipClause caller ∈ (DashboardService.listQuery caller q).filter ∧
    ownershipClause caller ∈ (DashboardService.statQuery caller q).filter ∧
    ∀ c ∈ q.filter, c ∈ (DashboardService.listQuery caller q).filter ∧
      c ∈ (DashboardService.statQuery caller q).filter := by
  refine ⟨rfl, rfl, ?_, ?_, ?_⟩
  · simp [DashboardService.listQuery]
  · simp [DashboardService.statQuery]
  · intro c hc
    exact ⟨by simp [DashboardService.listQuery, hc],
      by simp [DashboardService.statQuery, hc]⟩

/-- Witness for claim C9 at a concrete input. -/
theorem C9_witness :
    ownershipClause "u1" ∈ (DashboardService.listQuery "u1"
      { filter := [{ k := "name", v := [some "x"], o := "eq" }] }).filter ∧
    ({ k := "name", v := [some "x"], o := "eq" } : FilterClause) ∈
      (DashboardService.statQuery "u1"
        { filter := [{ k := "name", v := [some "x"], o := "eq" }] }).filter :=
  ⟨(C9_ownership_filter "u1"
      { filter := [{ k := "name", v := [some "x"], o := "eq" }] }).2.2.1,
    ((C9_ownership_filter "u1"
      { filter := [{ k := "name", v := [some "x"], o := "eq" }] }).2.2.2.2 _
        (by simp)).2⟩

/-- Effect of a record write on a lookup that already resolves. -/
theorem getDashboard_put_eq (st : Store) (rNew : Dashboard) (did dom : String)
    (r : Dashboard) (h : getDashboard st did dom = some r) :
    getDashboard (putDashboard st rNew) did dom =
      some (if r.dashboard_id == rNew.dashboard_id && r.domain_id == rNew.domain_id
        then rNew else r) := by
  rw [getDashboard_put, h]
  rfl

/-- After a single key-preserving record write, a resolving lookup
returns either the written record (and then the looked-up and fetched
records coincide) or the unchanged looked-up record. -/
theorem plain_write_cases (st : Store) (vo r2 : Dashboard) (did dom d2 m2 : String)
    (r r3 : Dashboard)
    (h : getDashboard st did dom = some r)
    (hvo : getDashboard st d2 m2 = some vo)
    (hk1 : r2.dashboard_id = vo.dashboard_id) (hk2 : r2.domain_id = vo.domain_id)
    (h3 : getDashboard (putDashboard st r2) did dom = some r3) :
    (r3 = r2 ∧ r = vo) ∨ r3 = r := by
  rw [getDashboard_put_eq st r2 did dom r h] at h3
  by_cases hc : (r.dashboard_id == r2.dashboard_id && r.domain_id == r2.domain_id) = true
  · have hkeys : r.dashboard_id = vo.dashboard_id ∧ r.domain_id = vo.domain_id := by
      have := hc
      rw [hk1, hk2] at this
      simpa [Bool.and_eq_true, beq_iff_eq] using this
    have hrvo : r = vo :=
      getDashboard_same_key st did dom d2 m2 r vo h hvo hkeys.1 hkeys.2
    rw [if_pos hc] at h3
    exact Or.inl ⟨(Option.some.inj h3).symm, hrvo⟩
  · rw [if_neg hc] at h3
    exact Or.inr (Option.some.inj h3).symm

/-- After the version-worthy write sequence (bump, snapshot, patched
write — both writes keyed like the fetched record), a resolving lookup
returns either the final written record (and then the looked-up and
fetched records coincide) or the unchanged looked-up record. -/
theorem bump_write_cases (st : Store) (vo r2 : Dashboard) (sn : List Snapshot)
    (did dom d2 m2 : String) (r r3 : Dashboard)
    (h : getDashboard st did dom = some r)
    (hvo : getDashboard st d2 m2 = some vo)
    (hk1 : r2.dashboard_id = vo.dashboard_id) (hk2 : r2.domain_id = vo.domain_id)
    (h3 : getDashboard
      (putDashboard { putDashboard st (increase_version vo) with snaps := sn } r2)
      did dom = some r3) :
    (r3 = r2 ∧ r = vo) ∨ r3 = r := by
  have hcollapse : getDashboard
      (putDashboard { putDashboard st (increase_version vo) with snaps := sn } r2)
      did dom =
      getDashboard (putDashboard (putDashboard st (increase_version vo)) r2) did dom := rfl
  rw [hcollapse] at h3
  have h1 := getDashboard_put_eq st (increase_version vo) did dom r h
  by_cases hc : (r.dashboard_id == (increase_version vo).dashboard_id &&
      r.domain_id == (increase_version vo).domain_id) = true
  · have hkeys : r.dashboard_id = vo.dashboard_id ∧ r.domain_id = vo.domain_id := by
      simpa [increase_version, Bool.and_eq_true, beq_iff_eq] using hc
    have hrvo : r = vo :=
      getDashboard_same_key st did dom d2 m2 r vo h hvo hkeys.1 hkeys.2
    have hstep1 : getDashboard (putDashboard st (increase_version vo)) did dom =
        some (increase_version vo) := by
      rw [h1, if_pos hc]
    rw [getDashboard_put_eq (putDashboard st (increase_version vo)) r2 did dom
      (increase_version vo) hstep1] at h3
    have hcond2 : ((increase_version vo).dashboard_id == r2.dashboard_id &&
        (increase_version vo).domain_id == r2.domain_id) = true := by
      simp [increase_version, hk1, hk2]
    rw [if_pos hcond2] at h3
    exact Or.inl ⟨(Option.some.inj h3).symm, hrvo⟩
  · have hstep1 : getDashboard (putDashboard st (increase_version vo)) did dom =
        some r := by
      rw [h1, if_neg hc]
    rw [getDashboard_put_eq (putDashboard st (increase_version vo)) r2 did dom
      r hstep1] at h3
    have hcond2 : ¬(r.dashboard_id == r2.dashboard_id &&
        r.domain_id == r2.domain_id) = true := by
      rw [hk1, hk2]
      simpa [increase_version] using hc
    rw [if_neg hcond2] at h3
    exact Or.inr (Option.some.inj h3).symm

/-- A `get` invocation never changes the store. -/
theorem runOp_getOp (caller did dom : String) (st : Store) :
    runOp st (Op.getOp caller did dom) = st := by
  simp only [runOp, applyOp]
  cases DashboardService.get caller did dom st <;> rfl

/-- A `get_version` invocation never changes the store. -/
theorem runOp_getVersionOp (caller did : String) (v : Nat) (dom : String) (st : Store) :
    runOp st (Op.getVersionOp caller did v dom) = st := by
  simp only [runOp, applyOp]
  cases DashboardService.get_version caller did v dom st <;> rfl

/-- A `list_versions` invocation never changes the store. -/
theorem runOp_listVersionsOp (caller did dom : String) (st : Store) :
    runOp st (Op.listVersionsOp caller did dom) = st := by
  simp only [runOp, applyOp]
  cases DashboardService.list_versions caller did dom st <;> rfl

/-- A failing operation leaves the store unchanged. -/
theorem runOp_eq_of_error (st : Store) (op : Op) (e : Err)
    (herr : applyOp st op = Except.error e) : runOp st op = st := by
  unfold runOp
  rw [herr]

/-- The version of a looked-up record is unchanged by an operation that
does not change the store. -/
theorem version_eq_of_runOp_eq (st : Store) (op : Op) (did dom : String)
    (r r2 : Dashboard)
    (hrun : runOp st op = st)
    (h : getDashboard st did dom = some r)
    (h2 : getDashboard (runOp st op) did dom = some r2) : r2.version = r.version := by
  rw [hrun, h] at h2
  cases Option.some.inj h2
  rfl

/-- One service invocation either leaves a record's version counter
unchanged or — only for `update` and `revert_version` — increments it by
exactly 1. -/
theorem version_step (op : Op) (st : Store) (did dom : String) (r r2 : Dashboard)
    (h : getDashboard st did dom = some r)
    (h2 : getDashboard (runOp st op) did dom = some r2) :
    r2.version = r.version ∨ (r2.version = r.version + 1 ∧ isVersionBump op = true) := by
  cases op with
  | createOp cp =>
    left
    have hfind : ∀ x : Dashboard,
        List.find? (fun rr : Dashboard => rr.dashboard_id == did && rr.domain_id == dom)
          (st.recs ++ [x]) = some r := by
      intro x
      rw [List.find?_append]
      have hh : List.find? (fun rr : Dashboard =>
          rr.dashboard_id == did && rr.domain_id == dom) st.recs = some r := h
      rw [hh]
      rfl
    have happ : getDashboard (runOp st (Op.createOp cp)) did dom = some r := by
      by_cases hc : (cp.layouts.isSome || cp.«variables».isSome ||
          cp.variables_schema.isSome) = true
      · simp only [runOp, applyOp, DashboardService.create, if_pos hc]
        exact hfind _
      · simp only [runOp, applyOp, DashboardService.create, if_neg hc]
        exact hfind _
    rw [happ] at h2
    cases Option.some.inj h2
    rfl
  | updateOp caller d2 m2 p =>
    cases hg : getDashboard st d2 m2 with
    | none =>
      left
      refine version_eq_of_runOp_eq st _ did dom r r2
        (runOp_eq_of_error st _ Err.notFound ?_) h h2
      simp only [applyOp]
      unfold DashboardService.update
      rw [hg]
    | some vo =>
      by_cases hca : checkAccess vo caller = true
      · left
        refine version_eq_of_runOp_eq st _ did dom r r2
          (runOp_eq_of_error st _ Err.permissionDenied ?_) h h2
        simp only [applyOp]
        unfold DashboardService.update
        rw [hg]
        simp [hca]
      · have hca2 : checkAccess vo caller = false := by
          simpa using hca
        by_cases hv : hasVersionKeyInParams vo
            (applySettingsMerge vo (applyNameDefault vo p)) = true
        · have hres := update_worthy_ok caller d2 m2 p st vo hg hca2 hv
          have hrun : runOp st (Op.updateOp caller d2 m2 p) =
              putDashboard
                { putDashboard st (increase_version vo) with
                  snaps := create_version_by_domain_dashboard_vo (increase_version vo)
                      (applySettingsMerge vo (applyNameDefault vo p)) :: st.snaps }
                (update_domain_dashboard_by_vo
                  (applySettingsMerge vo (applyNameDefault vo p)) (increase_version vo)) := by
            simp [runOp, applyOp, hres]
          rw [hrun] at h2
          rcases bump_write_cases st vo
            (update_domain_dashboard_by_vo
              (applySettingsMerge vo (applyNameDefault vo p)) (increase_version vo))
            _ did dom d2 m2 r r2 h hg rfl rfl h2 with ⟨hr2, hrvo⟩ | hr2
          · right
            refine ⟨?_, rfl⟩
            rw [hr2, hrvo]
            rfl
          · left
            rw [hr2]
        · have hv2 : hasVersionKeyInParams vo
              (applySettingsMerge vo (applyNameDefault vo p)) = false := by
            simpa using hv
          have hres := update_not_worthy_ok caller d2 m2 p st vo hg hca2 hv2
          have hrun : runOp st (Op.updateOp caller d2 m2 p) =
              putDashboard st (update_domain_dashboard_by_vo
                (applySettingsMerge vo (applyNameDefault vo p)) vo) := by
            simp [runOp, applyOp, hres]
          rw [hrun] at h2
          rcases plain_write_cases st vo
            (update_domain_dashboard_by_vo
              (applySettingsMerge vo (applyNameDefault vo p)) vo)
            did dom d2 m2 r r2 h hg rfl rfl h2 with ⟨hr2, hrvo⟩ | hr2
          · left
            rw [hr2, hrvo]
            rfl
          · left
            rw [hr2]
  | deleteOp caller d2 m2 =>
    left
    cases hg : getDashboard st d2 m2 with
    | none =>
      refine version_eq_of_runOp_eq st _ did dom r r2
        (runOp_eq_of_error st _ Err.notFound ?_) h h2
      simp only [applyOp]
      unfold DashboardService.delete
      rw [hg]
    | some vo =>
      by_cases hca : checkAccess vo caller = true
      · refine version_eq_of_runOp_eq st _ did dom r r2
          (runOp_eq_of_error st _ Err.permissionDenied ?_) h h2
        simp only [applyOp]
        unfold DashboardService.delete
        rw [hg]
        simp [hca]
      · have hca2 : checkAccess vo caller = false := by simpa using hca
        have hres : DashboardService.delete caller d2 m2 st = Except.ok
            { recs := st.recs.filter (fun rr =>
                !(rr.dashboard_id == d2 && rr.domain_id == m2))
              snaps := st.snaps.filter (fun s =>
                !(s.dashboard_id == vo.dashboard_id)) } := by
          unfold DashboardService.delete
          rw [hg]
          simp [hca2]
        have hrun : runOp st (Op.deleteOp caller d2 m2) =
            { recs := st.recs.filter (fun rr =>
                !(rr.dashboard_id == d2 && rr.domain_id == m2))
              snaps := st.snaps.filter (fun s =>
                !(s.dashboard_id == vo.dashboard_id)) } := by
          simp [runOp, applyOp, hres]
        rw [hrun] at h2
        by_cases hkey : did = d2 ∧ dom = m2
        · exfalso
        -- the addressed record is gone, so the lookup cannot succeed
          obtain ⟨e1, e2⟩ := hkey
          subst e1
          subst e2
          have hnone : List.find? (fun rr : Dashboard =>
              rr.dashboard_id == did && rr.domain_id == dom)
              (st.recs.filter (fun rr =>
                !(rr.dashboard_id == did && rr.domain_id == dom))) = none :=
            find?_filter_eq_none st.recs _ _ (by intro x hx; simp [hx])
          have h2x : List.find? (fun rr : Dashboard =>
              rr.dashboard_id == did && rr.domain_id == dom)
              (st.recs.filter (fun rr =>
                !(rr.dashboard_id == did && rr.domain_id == dom))) = some r2 := h2
          rw [hnone] at h2x
          exact Option.noConfusion h2x
        · have himp : ∀ x : Dashboard,
              (x.dashboard_id == did && x.domain_id == dom) = true →
              (!(x.dashboard_id == d2 && x.domain_id == m2)) = true := by
            intro x hx
            simp only [Bool.and_eq_true, beq_iff_eq] at hx
            cases hdq : (x.dashboard_id == d2 && x.domain_id == m2) with
            | false => simp
            | true =>
              exfalso
              simp only [Bool.and_eq_true, beq_iff_eq] at hdq
              exact hkey ⟨hx.1.symm.trans hdq.1, hx.2.symm.trans hdq.2⟩
          have hsame : List.find? (fun rr : Dashboard =>
              rr.dashboard_id == did && rr.domain_id == dom)
              (st.recs.filter (fun rr =>
                !(rr.dashboard_id == d2 && rr.domain_id == m2))) =
              List.find? (fun rr : Dashboard =>
                rr.dashboard_id == did && rr.domain_id == dom) st.recs :=
            find?_filter_of_imp st.recs _ _ himp
          have h2x : List.find? (fun rr : Dashboard =>
              rr.dashboard_id == did && rr.domain_id == dom)
              (st.recs.filter (fun rr =>
                !(rr.dashboard_id == d2 && rr.domain_id == m2))) = some r2 := h2
          rw [hsame] at h2x
          have hh : List.find? (fun rr : Dashboard =>
              rr.dashboard_id == did && rr.domain_id == dom) st.recs = some r := h
          rw [hh] at h2x
          cases Option.some.inj h2x
          rfl
  | deleteVersionOp caller d2 v m2 =>
    left
    have hrecs : (runOp st (Op.deleteVersionOp caller d2 v m2)).recs = st.recs := by
      unfold runOp
      cases happ : applyOp st (Op.deleteVersionOp caller d2 v m2) with
      | error e => rfl
      | ok st2 =>
        simp only [applyOp] at happ
        unfold DashboardService.delete_version at happ
        split at happ
        · simp at happ
        · split at happ
          · simp at happ
          · split at happ
            · simp at happ
            · unfold versionStoreDeleteOne at happ
              split at happ
              · simp at happ
              · cases happ
                rfl
    have hsame : getDashboard (runOp st (Op.deleteVersionOp caller d2 v m2)) did dom =
        getDashboard st did dom := by
      unfold getDashboard
      rw [hrecs]
    rw [hsame, h] at h2
    cases Option.some.inj h2
    rfl
  | revertVersionOp caller d2 v m2 =>
    cases hg : getDashboard st d2 m2 with
    | none =>
      left
      refine version_eq_of_runOp_eq st _ did dom r r2
        (runOp_eq_of_error st _ Err.notFound ?_) h h2
      simp only [applyOp]
      unfold DashboardService.revert_version
      rw [hg]
    | some vo =>
      by_cases hca : checkAccess vo caller = true
      · left
        refine version_eq_of_runOp_eq st _ did dom r r2
          (runOp_eq_of_error st _ Err.permissionDenied ?_) h h2
        simp only [applyOp]
        unfold DashboardService.revert_version
        rw [hg]
        simp [hca]
      · have hca2 : checkAccess vo caller = false := by simpa using hca
        cases hs : getSnapshot st d2 v m2 with
        | none =>
          left
          refine version_eq_of_runOp_eq st _ did dom r r2
            (runOp_eq_of_error st _ Err.notFound ?_) h h2
          simp only [applyOp]
          unfold DashboardService.revert_version
          rw [hg]
          simp [hca2, hs]
        | some snap =>
          have hres : DashboardService.revert_version caller d2 v m2 st = Except.ok
              (putDashboard
                { putDashboard st (increase_version vo) with
                  snaps := create_version_by_domain_dashboard_vo (increase_version vo)
                      { layouts := some snap.layouts
                        «variables» := some snap.«variables»
                        variables_schema := some snap.variables_schema } :: st.snaps }
                (update_domain_dashboard_by_vo
                  { layouts := some snap.layouts
                    «variables» := some snap.«variables»
                    variables_schema := some snap.variables_schema }
                  (increase_version vo))) := by
            unfold DashboardService.revert_version
            rw [hg]
            simp [hca2, hs]
          have hrun : runOp st (Op.revertVersionOp caller d2 v m2) =
              putDashboard
                { putDashboard st (increase_version vo) with
                  snaps := create_version_by_domain_dashboard_vo (increase_version vo)
                      { layouts := some snap.layouts
                        «variables» := some snap.«variables»
                        variables_schema := some snap.variables_schema } :: st.snaps }
                (update_domain_dashboard_by_vo
                  { layouts := some snap.layouts
                    «variables» := some snap.«variables»
                    variables_schema := some snap.variables_schema }
                  (increase_version vo)) := by
            simp [runOp, applyOp, hres]
          rw [hrun] at h2
          rcases bump_write_cases st vo
            (update_domain_dashboard_by_vo
              { layouts := some snap.layouts
                «variables» := some snap.«variables»
                variables_schema := some snap.variables_schema }
              (increase_version vo))
            _ did dom d2 m2 r r2 h hg rfl rfl h2 with ⟨hr2, hrvo⟩ | hr2
          · right
            refine ⟨?_, rfl⟩
            rw [hr2, hrvo]
            rfl
          · left
            rw [hr2]
  | getOp caller d2 m2 =>
    left
    exact version_eq_of_runOp_eq st _ did dom r r2 (runOp_getOp caller d2 m2 st) h h2
  | getVersionOp caller d2 v m2 =>
    left
    exact version_eq_of_runOp_eq st _ did dom r r2
      (runOp_getVersionOp caller d2 v m2 st) h h2
  | listVersionsOp caller d2 m2 =>
    left
    exact version_eq_of_runOp_eq st _ did dom r r2
      (runOp_listVersionsOp caller d2 m2 st) h h2
  | listOp caller q =>
    left
    exact version_eq_of_runOp_eq st (Op.listOp caller q) did dom r r2 rfl h h2
  | statOp caller q =>
    left
    exact version_eq_of_runOp_eq st (Op.statOp caller q) did dom r r2 rfl h h2

/-- A run that keeps the record present starts with it present. -/
theorem presentThrough_head (did dom : String) (st : Store) (ops : List Op)
    (h : presentThrough did dom st ops = true) :
    (getDashboard st did dom).isSome = true := by
  cases ops with
  | nil => exact h
  | cons op ops =>
    simp only [presentThrough, Bool.and_eq_true] at h
    exact h.1

/-- A run that keeps the record present keeps it present after its first
step. -/
theorem presentThrough_tail (did dom : String) (st : Store) (op : Op) (ops : List Op)
    (h : presentThrough did dom st (op :: ops) = true) :
    presentThrough did dom (runOp st op) ops = true := by
  simp only [presentThrough, Bool.and_eq_true] at h
  exact h.2

/-- Across any sequence of service invocations that keeps the record
present, its version counter never decreases. -/
theorem version_monotone_run (ops : List Op) (st : Store) (did dom : String)
    (r r2 : Dashboard)
    (hpt : presentThrough did dom st ops = true)
    (h : getDashboard st did dom = some r)
    (h2 : getDashboard (ops.foldl runOp st) did dom = some r2) :
    r.version ≤ r2.version := by
  induction ops generalizing st r with
  | nil =>
    simp only [List.foldl_nil] at h2
    rw [h] at h2
    cases Option.some.inj h2
    exact le_refl _
  | cons op ops ih =>
    have hpt2 := presentThrough_tail did dom st op ops hpt
    have hmid : (getDashboard (runOp st op) did dom).isSome = true :=
      presentThrough_head did dom (runOp st op) ops hpt2
    obtain ⟨rm, hrm⟩ := Option.isSome_iff_exists.mp hmid
    have hstep := version_step op st did dom r rm h hrm
    have hle1 : r.version ≤ rm.version := by
      rcases hstep with he | ⟨he, _⟩
      · rw [he]
      · rw [he]
        exact Nat.le_succ _
    have hle2 : rm.version ≤ r2.version :=
      ih (runOp st op) rm hpt2 hrm (by simpa using h2)
    exact le_trans hle1 hle2

/-- Claim C6: across any sequence of service operations during which the
record exists, its version counter never decreases; and in any single
operation the counter either stays equal or increases by exactly 1, the
latter only for `update` and `revert_version`. -/
theorem C6_version_monotone :
    (∀ (ops : List Op) (st : Store) (did dom : String) (r r2 : Dashboard),
      presentThrough did dom st ops = true →
      getDashboard st did dom = some r →
      getDashboard (ops.foldl runOp st) did dom = some r2 →
      r.version ≤ r2.version) ∧
    (∀ (op : Op) (st : Store) (did dom : String) (r r2 : Dashboard),
      getDashboard st did dom = some r →
      getDashboard (runOp st op) did dom = some r2 →
      r2.version = r.version ∨
        (r2.version = r.version + 1 ∧ isVersionBump op = true)) :=
  ⟨fun ops st did dom r r2 hpt h h2 =>
      version_monotone_run ops st did dom r r2 hpt h h2,
    fun op st did dom r r2 h h2 => version_step op st did dom r r2 h h2⟩

/-- Witness for claim C6 at a concrete input: one version-worthy update
followed by one read moves `sampleRec` from version 3 to version 4. -/
theorem C6_witness : sampleRec.version ≤ 4 :=
  C6_version_monotone.1
    [Op.updateOp "u1" "dash-1" "dom-1" { layouts := some [Val.vint 2] },
      Op.getOp "u1" "dash-1" "dom-1"]
    sampleStore "dash-1" "dom-1" sampleRec _ (by decide) rfl rfl
